import Mathlib

/-!
Verification of the budget pricing and scheduling core of the lomCOTACAO
budget form (`src/pages/BudgetFormPage.tsx`).

The TypeScript code is shallowly embedded here:
JavaScript numbers are modelled by `ℚ` (the computations are pure
arithmetic: products, sums, and division by the literal 100), calendar
dates by their day number since the Unix epoch (`Nat`), and the fallible
backend (Supabase) by an explicit environment that says which store
operation fails.  Each definition is translated from the corresponding
source function and keeps its name.
-/

namespace LomCotacao

/-- A pricing tier, from `interface PricingOption`
(`BudgetFormPage.tsx`): an informational `quantity`, an editable margin
percentage and the three derived fields. -/
structure PricingOption where
  id : Nat
  quantity : ℚ
  marginPercentage : ℚ
  marginAmount : ℚ
  totalCost : ℚ
  clientPrice : ℚ
deriving DecidableEq, Repr

/-- Unit-of-measure enumeration, from `unit: 'uni' | 'mt' | 'kg' | 'mil'`. -/
inductive UnitKind
  | uni | mt | kg | mil
deriving DecidableEq, Repr

/-- Line-item variant tag, from `type: 'material' | 'extra'`. -/
inductive ItemType
  | material | extra
deriving DecidableEq, Repr

/-- A budget line item, from `interface BudgetItem` (`BudgetFormPage.tsx`).
The optional `id` is the persisted row identity; `lead_time_days` is the
optional per-line lead time. -/
structure BudgetItem where
  id : Option String
  description : String
  supplier : String
  quantity : ℚ
  unit : UnitKind
  unit_price : ℚ
  line_cost : ℚ
  type : ItemType
  has_moq : Bool
  moq_quantity : Option ℚ
  lead_time_days : Option Nat
deriving DecidableEq, Repr

/-- Function `recalcOption` (`BudgetFormPage.tsx` lines 94-99): recompute one
pricing tier from the aggregate base cost.  The `quantity` field is read
from the option but never used; only the three derived fields are
overwritten. -/
def recalcOption (option : PricingOption) (baseCost : ℚ) : PricingOption :=
  let marginAmount := (baseCost * option.marginPercentage) / 100
  let totalCost := baseCost + marginAmount
  let clientPrice := totalCost
  { option with marginAmount := marginAmount, totalCost := totalCost,
                clientPrice := clientPrice }

/-- Expression `items.reduce((sum, item) => sum + item.line_cost, 0)`: the aggregate
base cost of the material lines, as computed at `BudgetFormPage.tsx`
lines 89, 209 and 349. -/
def baseCost (items : List BudgetItem) : ℚ :=
  items.foldl (fun sum item => sum + item.line_cost) 0

/-- The pricing `useEffect` on `[items]` (`BudgetFormPage.tsx` lines
88-91): every tier is recomputed from the base cost of the material
lines alone. -/
def recomputePricing (options : List PricingOption) (items : List BudgetItem) :
    List PricingOption :=
  options.map (fun opt => recalcOption opt (baseCost items))

/-- Function `getTotalLeadTime` (`BudgetFormPage.tsx` lines 173-178): the lead
times of material and extra lines are summed (`lead_time_days || 0`
reads an unset lead time as 0); a zero sum falls back to 42. -/
def getTotalLeadTime (items extras : List BudgetItem) : Nat :=
  let itemsLeadTime := items.foldl (fun sum item => sum + item.lead_time_days.getD 0) 0
  let extrasLeadTime := extras.foldl (fun sum extra => sum + extra.lead_time_days.getD 0) 0
  let total := itemsLeadTime + extrasLeadTime
  if total > 0 then total else 42

/-- JavaScript `Date.prototype.getDay` on the UTC day number `d` (days
since 1970-01-01, which was a Thursday): 0 = Sunday, ..., 6 = Saturday. -/
def getDay (d : Nat) : Nat :=
  (d + 4) % 7

/-- The loop guard `currentDate.getDay() !== 0 && currentDate.getDay() !== 6`
of `calculateEstimatedEndDate`: `d` is neither Sunday nor Saturday. -/
def isBusinessDay (d : Nat) : Bool :=
  getDay d != 0 && getDay d != 6

/-- Number of weekend days directly ahead of day `c`: 2 if `c + 1` is a
Saturday, 1 if `c + 1` is a Sunday, otherwise 0.  Only used as the
termination measure of `calculateEstimatedEndDate`. -/
def weekendPad (c : Nat) : Nat :=
  if (c + 5) % 7 = 6 then 2 else if (c + 5) % 7 = 0 then 1 else 0

/-- Function `calculateEstimatedEndDate` (`BudgetFormPage.tsx` lines 181-192)
over epoch day numbers: starting from the start date, advance one
calendar day at a time, decrementing `remaining` only on non-weekend
days, until `remaining` is no longer positive.  The source initialises
`currentDate` to the start date and `remaining` to `daysToAdd`, so the
function is the while loop with those two variables as parameters. -/
def calculateEstimatedEndDate (currentDate : Nat) (remaining : Int) : Nat :=
  if 0 < remaining then
    if isBusinessDay (currentDate + 1) then
      calculateEstimatedEndDate (currentDate + 1) (remaining - 1)
    else
      calculateEstimatedEndDate (currentDate + 1) remaining
  else currentDate
termination_by 3 * remaining.toNat + weekendPad currentDate
decreasing_by
  · have hb : (currentDate + 5) % 7 ≠ 0 ∧ (currentDate + 5) % 7 ≠ 6 := by
      rename_i h hbd
      simpa [isBusinessDay, getDay, Nat.add_assoc, bne_iff_ne] using hbd
    have hpad : weekendPad currentDate = 0 := by
      unfold weekendPad
      rw [if_neg hb.2, if_neg hb.1]
    have hpad2 : weekendPad (currentDate + 1) ≤ 2 := by
      unfold weekendPad
      split <;> [omega; split <;> omega]
    omega
  · have hb : ¬((currentDate + 5) % 7 ≠ 0 ∧ (currentDate + 5) % 7 ≠ 6) := by
      rename_i h hbd
      intro hcontra
      exact hbd (by simp [isBusinessDay, getDay, Nat.add_assoc, bne_iff_ne, hcontra.1, hcontra.2])
    have hpads : weekendPad currentDate = weekendPad (currentDate + 1) + 1 := by
      unfold weekendPad
      rcases not_and_or.mp hb with h0 | h6
      · have h0' : (currentDate + 5) % 7 = 0 := not_not.mp h0
        have h1' : (currentDate + 1 + 5) % 7 = 1 := by omega
        rw [h0', h1']
        norm_num
      · have h6' : (currentDate + 5) % 7 = 6 := not_not.mp h6
        have h0' : (currentDate + 1 + 5) % 7 = 0 := by omega
        rw [h6', h0']
        norm_num
    omega

/-- Number of business (non-weekend) days among the `len` calendar days
`start + 1, ..., start + len`: the specification-side counter used to
characterise `calculateEstimatedEndDate`.  The start day itself is not
counted. -/
def countBusinessDays (start : Nat) : Nat → Nat
  | 0 => 0
  | len + 1 =>
    (if isBusinessDay (start + 1) then 1 else 0) + countBusinessDays (start + 1) len

/-- A typed field assignment for a `BudgetItem`, modelling the
`(field: keyof BudgetItem, value: any)` pair taken by `updateItem` and
`updateExtra`. -/
inductive ItemField
  | rowId (v : Option String)
  | description (v : String)
  | supplier (v : String)
  | quantity (v : ℚ)
  | unit (v : UnitKind)
  | unit_price (v : ℚ)
  | line_cost (v : ℚ)
  | itemType (v : ItemType)
  | has_moq (v : Bool)
  | moq_quantity (v : Option ℚ)
  | lead_time_days (v : Option Nat)
deriving DecidableEq, Repr

/-- The spread `{ ...item, [field]: value }`: overwrite one field of a
line item. -/
def setField (it : BudgetItem) : ItemField → BudgetItem
  | .rowId v => { it with id := v }
  | .description v => { it with description := v }
  | .supplier v => { it with supplier := v }
  | .quantity v => { it with quantity := v }
  | .unit v => { it with unit := v }
  | .unit_price v => { it with unit_price := v }
  | .line_cost v => { it with line_cost := v }
  | .itemType v => { it with type := v }
  | .has_moq v => { it with has_moq := v }
  | .moq_quantity v => { it with moq_quantity := v }
  | .lead_time_days v => { it with lead_time_days := v }

/-- The per-entry body shared by `updateItem` (`BudgetFormPage.tsx`
lines 302-309) and `updateExtra` (lines 332-339): overwrite the field,
and when the field is `quantity` or `unit_price`, overwrite `line_cost`
with `quantity * unit_price` of the updated entry. -/
def applyItemUpdate (it : BudgetItem) (f : ItemField) : BudgetItem :=
  let updated := setField it f
  match f with
  | .quantity _ => { updated with line_cost := updated.quantity * updated.unit_price }
  | .unit_price _ => { updated with line_cost := updated.quantity * updated.unit_price }
  | _ => updated

/-- Function `updateItem` (`BudgetFormPage.tsx` lines 302-309) at the list
level: replace the entry at `index` by its updated version (called only
with in-range indices by the rendered rows). -/
def updateItem (items : List BudgetItem) (index : Nat) (f : ItemField) :
    List BudgetItem :=
  match items.get? index with
  | some it => items.set index (applyItemUpdate it f)
  | none => items

/-- Function `updateExtra` (`BudgetFormPage.tsx` lines 332-339): identical to
`updateItem` but acting on the extras collection. -/
def updateExtra (extras : List BudgetItem) (index : Nat) (f : ItemField) :
    List BudgetItem :=
  match extras.get? index with
  | some it => extras.set index (applyItemUpdate it f)
  | none => extras

/-- The blank material line appended by `addItem` (`BudgetFormPage.tsx`
lines 286-300). -/
def newMaterialItem : BudgetItem :=
  { id := none, description := "", supplier := "", quantity := 1,
    unit := .uni, unit_price := 0, line_cost := 0, type := .material,
    has_moq := false, moq_quantity := none, lead_time_days := none }

/-- The blank extra line appended by `addExtra` (`BudgetFormPage.tsx`
lines 316-330). -/
def newExtraItem : BudgetItem :=
  { id := none, description := "", supplier := "", quantity := 1,
    unit := .uni, unit_price := 0, line_cost := 0, type := .extra,
    has_moq := false, moq_quantity := none, lead_time_days := none }

/-- Function `addItem`: append a blank material line. -/
def addItem (items : List BudgetItem) : List BudgetItem :=
  items ++ [newMaterialItem]

/-- Function `addExtra`: append a blank extra line. -/
def addExtra (extras : List BudgetItem) : List BudgetItem :=
  extras ++ [newExtraItem]

/-- A typed field assignment for a `PricingOption`, modelling the
`(field: keyof PricingOption, value: any)` pair taken by
`updatePricingOption`. -/
inductive PricingField
  | tierId (v : Nat)
  | quantity (v : ℚ)
  | marginPercentage (v : ℚ)
  | marginAmount (v : ℚ)
  | totalCost (v : ℚ)
  | clientPrice (v : ℚ)
deriving DecidableEq, Repr

/-- The spread `{ ...newOptions[index], [field]: value }` on a pricing
option. -/
def setPricingField (o : PricingOption) : PricingField → PricingOption
  | .tierId v => { o with id := v }
  | .quantity v => { o with quantity := v }
  | .marginPercentage v => { o with marginPercentage := v }
  | .marginAmount v => { o with marginAmount := v }
  | .totalCost v => { o with totalCost := v }
  | .clientPrice v => { o with clientPrice := v }

/-- Function `updatePricingOption` (`BudgetFormPage.tsx` lines 346-352):
overwrite one field of the tier at `index`, then recompute that tier
from the current base cost of the material lines. -/
def updatePricingOption (options : List PricingOption) (items : List BudgetItem)
    (index : Nat) (f : PricingField) : List PricingOption :=
  match options.get? index with
  | some o => options.set index (recalcOption (setPricingField o f) (baseCost items))
  | none => options

/-- Day number since the Unix epoch of the proleptic-Gregorian civil
date `y-m-d` (valid for dates from 1970 on), modelling how JavaScript
`new Date("y-m-d")` / `toISOString` handle UTC dates; standard
days-from-civil computation. -/
def toEpochDay (y m d : Nat) : Nat :=
  let yAdj := if m ≤ 2 then y - 1 else y
  let era := yAdj / 400
  let yoe := yAdj - era * 400
  let mp := (m + 9) % 12
  let doy := (153 * mp + 2) / 5 + d - 1
  let doe := yoe * 365 + yoe / 4 - yoe / 100 + doy
  era * 146097 + doe - 719468

/-- Whether a field assignment targets `quantity` or `unit_price` — the
two fields whose edit makes `updateItem`/`updateExtra` recompute
`line_cost`. -/
def isRecalcField : ItemField → Bool
  | .quantity _ => true
  | .unit_price _ => true
  | _ => false

/-- The budget form state, from `interface Budget` (`BudgetFormPage.tsx`
lines 27-39) minus the derived `pricing_options` snapshot, which is kept
in its own state variable. -/
structure BudgetForm where
  client_id : String
  status : String
  lomartex_ref : Option String := none
  client_ref : Option String := none
  collection : Option String := none
  size : Option String := none
  project_start_date : Option String := none
  estimated_end_date : Option String := none
  images : List String := []
deriving DecidableEq, Repr

/-- The budget record payload written by `handleSubmit`: the spread
`...budget` plus the overriding `images`, `total_amount` and
`pricing_options` fields (`BudgetFormPage.tsx` lines 216-222 and
258-264). -/
structure BudgetRow where
  form : BudgetForm
  images : List String
  total_amount : ℚ
  pricing_options : List PricingOption
deriving DecidableEq, Repr

/-- The budget row as assembled by `handleSubmit` on both save paths:
`total_amount` is the reduce over the material lines' `line_cost`
(line 209), `images` the previously persisted images plus the urls of
the uploads that succeeded. -/
def savedBudgetRow (budget : BudgetForm) (items : List BudgetItem)
    (pricing : List PricingOption) (allImages : List String) : BudgetRow :=
  { form := budget, images := allImages,
    total_amount := items.foldl (fun sum item => sum + item.line_cost) 0,
    pricing_options := pricing }

/-- One write against the external backend, as attempted by
`handleSubmit`/`uploadImages`.  `deleteItems` is the
`delete_line_items` operation of the collaborator interface; it is
never issued by this form, which the no-orphan-delete theorem states. -/
inductive StoreOp
  | uploadImage (fileName : String)
  | budgetUpdate (budgetId : String) (row : BudgetRow)
  | budgetInsert (row : BudgetRow) (userId : String)
  | itemUpdate (rowId : String) (item : BudgetItem)
  | itemInsert (budgetId : String) (item : BudgetItem)
  | itemsBulkInsert (budgetId : String) (rows : List BudgetItem)
  | deleteItems (budgetId : String)
deriving DecidableEq, Repr

/-- A user-facing toast raised during save: the per-file
`Erro ao fazer upload da imagem ...` of `uploadImages`, the single
`Erro ao salvar orçamento` of the catch block, or the success toast. -/
inductive Signal
  | uploadError (fileName : String)
  | saveError
  | saveSuccess
deriving DecidableEq, Repr

/-- The environment deciding the outcome of each backend call:
which operations fail, the authenticated user (none means
`getUser` yields no user), and the id assigned to a newly inserted
budget. -/
structure SaveEnv where
  fails : StoreOp → Bool
  user : Option String
  newBudgetId : String

/-- The public url the object store hands back for an uploaded file
(`getPublicUrl`), modelled as a function of the storage path. -/
def publicUrl (fileName : String) : String :=
  "budget-images/" ++ fileName

/-- Accumulated outcome of `uploadImages`: operations attempted,
per-file error toasts, and the urls of the successful uploads. -/
structure UploadResult where
  ops : List StoreOp
  signals : List Signal
  urls : List String
deriving DecidableEq, Repr

/-- One iteration of the `uploadImages` loop (`BudgetFormPage.tsx`
lines 153-168): attempt the upload; on error, toast a per-file message
and `continue`; on success, collect the public url. -/
def uploadStep (fails : StoreOp → Bool) (acc : UploadResult) (file : String) :
    UploadResult :=
  if fails (.uploadImage file) then
    { acc with ops := acc.ops ++ [.uploadImage file],
               signals := acc.signals ++ [.uploadError file] }
  else
    { acc with ops := acc.ops ++ [.uploadImage file],
               urls := acc.urls ++ [publicUrl file] }

/-- Function `uploadImages` (`BudgetFormPage.tsx` lines 151-170): upload every
pending file in order; failed uploads are skipped, not fatal. -/
def uploadImages (fails : StoreOp → Bool) (pendingFiles : List String) :
    UploadResult :=
  pendingFiles.foldl (uploadStep fails) ⟨[], [], []⟩

/-- The write issued for one line item on the update path
(`BudgetFormPage.tsx` lines 226-253): update in place when the item
carries a persisted id, insert tagged with the budget id otherwise. -/
def lineItemOp (budgetId : String) (it : BudgetItem) : StoreOp :=
  match it.id with
  | some rid => .itemUpdate rid it
  | none => .itemInsert budgetId it

/-- The per-item write loops of the update path: issue `lineItemOp` for
each line in order; the first failing write throws, aborting the rest.
Returns the operations attempted and whether all succeeded. -/
def writeLineItems (fails : StoreOp → Bool) (budgetId : String) :
    List BudgetItem → List StoreOp × Bool
  | [] => ([], true)
  | it :: rest =>
    if fails (lineItemOp budgetId it) then ([lineItemOp budgetId it], false)
    else
      let r := writeLineItems fails budgetId rest
      (lineItemOp budgetId it :: r.1, r.2)

/-- The outcome of a save: the backend writes attempted, in order, and
the user-facing toasts raised, in order. -/
structure SaveResult where
  ops : List StoreOp
  signals : List Signal
deriving DecidableEq, Repr

/-- Function `handleSubmit` (`BudgetFormPage.tsx` lines 204-283).  The try block
checks authentication, computes the base cost, uploads pending images
(failures there only toast and skip), then either updates the budget
record and upserts each line item one by one (update path) or inserts
the budget record and bulk-inserts all lines tagged with the new id
(create path).  Any thrown backend error lands in the single catch
block, which raises one failure toast; otherwise one success toast is
raised. -/
def handleSubmit (env : SaveEnv) (editingId : Option String)
    (budget : BudgetForm) (items extras : List BudgetItem)
    (pricing : List PricingOption) (pendingFiles : List String) : SaveResult :=
  match env.user with
  | none => ⟨[], [.saveError]⟩
  | some uid =>
    let up := uploadImages env.fails pendingFiles
    let row := savedBudgetRow budget items pricing (budget.images ++ up.urls)
    match editingId with
    | some bid =>
      if env.fails (.budgetUpdate bid row) then
        ⟨up.ops ++ [.budgetUpdate bid row], up.signals ++ [.saveError]⟩
      else
        let wi := writeLineItems env.fails bid items
        if wi.2 then
          let we := writeLineItems env.fails bid extras
          if we.2 then
            ⟨up.ops ++ [.budgetUpdate bid row] ++ wi.1 ++ we.1,
             up.signals ++ [.saveSuccess]⟩
          else
            ⟨up.ops ++ [.budgetUpdate bid row] ++ wi.1 ++ we.1,
             up.signals ++ [.saveError]⟩
        else
          ⟨up.ops ++ [.budgetUpdate bid row] ++ wi.1, up.signals ++ [.saveError]⟩
    | none =>
      if env.fails (.budgetInsert row uid) then
        ⟨up.ops ++ [.budgetInsert row uid], up.signals ++ [.saveError]⟩
      else
        let rows := items ++ extras
        if env.fails (.itemsBulkInsert env.newBudgetId rows) then
          ⟨up.ops ++ [.budgetInsert row uid, .itemsBulkInsert env.newBudgetId rows],
           up.signals ++ [.saveError]⟩
        else
          ⟨up.ops ++ [.budgetInsert row uid, .itemsBulkInsert env.newBudgetId rows],
           up.signals ++ [.saveSuccess]⟩

/-- The `total_amount` payloads of the budget-record writes among a
list of attempted operations. -/
def budgetWriteTotals (ops : List StoreOp) : List ℚ :=
  ops.filterMap (fun op => match op with
    | .budgetUpdate _ row => some row.total_amount
    | .budgetInsert row _ => some row.total_amount
    | _ => none)

/-- Whether a store operation is an image upload (the only fallible
step whose failure `uploadImages` swallows instead of throwing). -/
def isUploadOp : StoreOp → Bool
  | .uploadImage _ => true
  | _ => false

/-- The three derived fields of a pricing tier, bundled for statements
about what a recomputation may change. -/
def derivedOf (o : PricingOption) : ℚ × ℚ × ℚ :=
  (o.marginAmount, o.totalCost, o.clientPrice)

/-- A concrete environment in which every budget-record update is
rejected by the store and everything else succeeds. -/
def failBudgetUpdateEnv : SaveEnv :=
  { fails := fun op => match op with | .budgetUpdate _ _ => true | _ => false,
    user := some "u", newBudgetId := "nb" }

/-- A concrete environment in which every per-line update or insert is
rejected by the store and everything else succeeds. -/
def failItemWriteEnv : SaveEnv :=
  { fails := fun op => match op with
      | .itemUpdate _ _ => true
      | .itemInsert _ _ => true
      | _ => false,
    user := some "u", newBudgetId := "nb" }

/-- A concrete environment in which every budget-record insert is
rejected by the store and everything else succeeds. -/
def failBudgetInsertEnv : SaveEnv :=
  { fails := fun op => match op with | .budgetInsert _ _ => true | _ => false,
    user := some "u", newBudgetId := "nb" }

/-- A concrete environment in which the create path's bulk line insert
is rejected by the store and everything else succeeds. -/
def failBulkInsertEnv : SaveEnv :=
  { fails := fun op => match op with | .itemsBulkInsert _ _ => true | _ => false,
    user := some "u", newBudgetId := "nb" }

/-- A concrete environment in which exactly the image uploads fail. -/
def failUploadsEnv : SaveEnv :=
  { fails := isUploadOp, user := some "u", newBudgetId := "nb" }

/-- A concrete minimal budget form state. -/
def draftBudget : BudgetForm :=
  { client_id := "c", status := "draft" }

end LomCotacao

namespace LomCotacao

/-! ## Helper lemmas -/

theorem weekendPad_le_two (c : Nat) : weekendPad c ≤ 2 := by
  unfold weekendPad
  split
  · omega
  · split <;> omega

theorem isBusinessDay_iff (d : Nat) :
    isBusinessDay d = true ↔ (d + 4) % 7 ≠ 0 ∧ (d + 4) % 7 ≠ 6 := by
  simp [isBusinessDay, getDay, bne_iff_ne]

theorem weekendPad_eq_zero_of_business (c : Nat)
    (h : isBusinessDay (c + 1) = true) : weekendPad c = 0 := by
  rw [isBusinessDay_iff] at h
  have h5 : (c + 5) % 7 ≠ 0 ∧ (c + 5) % 7 ≠ 6 := by
    have : c + 1 + 4 = c + 5 := by omega
    rwa [this] at h
  unfold weekendPad
  rw [if_neg h5.2, if_neg h5.1]

theorem weekendPad_succ_of_not_business (c : Nat)
    (h : isBusinessDay (c + 1) = false) :
    weekendPad c = weekendPad (c + 1) + 1 := by
  have h5 : (c + 5) % 7 = 0 ∨ (c + 5) % 7 = 6 := by
    by_contra hcon
    push_neg at hcon
    have : isBusinessDay (c + 1) = true := by
      rw [isBusinessDay_iff]
      have : c + 1 + 4 = c + 5 := by omega
      rw [this]
      exact hcon
    simp [this] at h
  unfold weekendPad
  rcases h5 with h0 | h6
  · have h1 : (c + 1 + 5) % 7 = 1 := by omega
    rw [h0, h1]
    norm_num
  · have h0 : (c + 1 + 5) % 7 = 0 := by omega
    rw [h6, h0]
    norm_num

theorem foldl_add_lead (xs : List BudgetItem) (n : Nat) :
    xs.foldl (fun sum it => sum + it.lead_time_days.getD 0) n =
      n + (xs.map (fun it => it.lead_time_days.getD 0)).sum := by
  induction xs generalizing n with
  | nil => simp
  | cons x xs ih => simp [ih, Nat.add_assoc]

theorem foldl_add_cost (xs : List BudgetItem) (q : ℚ) :
    xs.foldl (fun sum it => sum + it.line_cost) q =
      q + (xs.map (fun it => it.line_cost)).sum := by
  induction xs generalizing q with
  | nil => simp
  | cons x xs ih => simp [ih, add_assoc]

/-! ## Claim theorems -/

/-- C1: `recalcOption` sets `margin_amount = B * m / 100`,
`total_cost = B + margin_amount`, `client_price = total_cost`, and
leaves the tier's id, quantity, and margin percentage unchanged. -/
theorem recalcOption_correct (opt : PricingOption) (B : ℚ) :
    (recalcOption opt B).marginAmount = B * opt.marginPercentage / 100 ∧
    (recalcOption opt B).totalCost = B + (recalcOption opt B).marginAmount ∧
    (recalcOption opt B).clientPrice = (recalcOption opt B).totalCost ∧
    (recalcOption opt B).id = opt.id ∧
    (recalcOption opt B).quantity = opt.quantity ∧
    (recalcOption opt B).marginPercentage = opt.marginPercentage := by
  simp [recalcOption]

/-- C9: pricing recomputation is idempotent — recomputing a tier twice
with the same base cost yields the same tier as recomputing once. -/
theorem recalcOption_idempotent (t : PricingOption) (B : ℚ) :
    recalcOption (recalcOption t B) B = recalcOption t B := by
  simp [recalcOption]

/-- C4: `getTotalLeadTime` sums `lead_time_days` (absent read as 0)
over all material and extra lines combined, and returns 42 when that
sum is 0. -/
theorem getTotalLeadTime_spec (items extras : List BudgetItem) :
    getTotalLeadTime items extras =
      if ((items ++ extras).map (fun it => it.lead_time_days.getD 0)).sum = 0
      then 42
      else ((items ++ extras).map (fun it => it.lead_time_days.getD 0)).sum := by
  unfold getTotalLeadTime
  rw [foldl_add_lead, foldl_add_lead]
  simp only [List.map_append, List.sum_append, Nat.zero_add]
  split
  · split
    · omega
    · omega
  · split
    · omega
    · omega

theorem applyItemUpdate_recalc (it : BudgetItem) (f : ItemField)
    (hf : isRecalcField f = true) :
    (applyItemUpdate it f).line_cost =
      (applyItemUpdate it f).quantity * (applyItemUpdate it f).unit_price := by
  cases f <;> simp_all [applyItemUpdate, setField, isRecalcField]

theorem foldl_applyItemUpdate_inv (fs : List ItemField) (it : BudgetItem)
    (h0 : it.line_cost = it.quantity * it.unit_price)
    (h : ∀ g ∈ fs, isRecalcField g = true) :
    (fs.foldl applyItemUpdate it).line_cost =
      (fs.foldl applyItemUpdate it).quantity *
        (fs.foldl applyItemUpdate it).unit_price := by
  induction fs generalizing it with
  | nil => simpa using h0
  | cons g gs ih =>
    simp only [List.foldl_cons]
    exact ih (applyItemUpdate it g)
      (applyItemUpdate_recalc it g (h g (by simp)))
      (fun g' hg' => h g' (by simp [hg']))

/-- C5: after a `quantity` or `unit_price` edit, an item satisfies
`line_cost = quantity * unit_price`; newly added material and extra
lines satisfy it; and the invariant holds after any sequence of
quantity/unit-price edits starting from a newly added line. -/
theorem line_cost_invariant (it : BudgetItem) (f : ItemField)
    (fs : List ItemField) :
    (isRecalcField f = true →
      (applyItemUpdate it f).line_cost =
        (applyItemUpdate it f).quantity * (applyItemUpdate it f).unit_price) ∧
    newMaterialItem.line_cost = newMaterialItem.quantity * newMaterialItem.unit_price ∧
    newExtraItem.line_cost = newExtraItem.quantity * newExtraItem.unit_price ∧
    ((∀ g ∈ fs, isRecalcField g = true) →
      (fs.foldl applyItemUpdate newMaterialItem).line_cost =
        (fs.foldl applyItemUpdate newMaterialItem).quantity *
          (fs.foldl applyItemUpdate newMaterialItem).unit_price) ∧
    ((∀ g ∈ fs, isRecalcField g = true) →
      (fs.foldl applyItemUpdate newExtraItem).line_cost =
        (fs.foldl applyItemUpdate newExtraItem).quantity *
          (fs.foldl applyItemUpdate newExtraItem).unit_price) := by
  refine ⟨applyItemUpdate_recalc it f, by simp [newMaterialItem],
    by simp [newExtraItem], ?_, ?_⟩
  · exact fun h => foldl_applyItemUpdate_inv fs newMaterialItem (by simp [newMaterialItem]) h
  · exact fun h => foldl_applyItemUpdate_inv fs newExtraItem (by simp [newExtraItem]) h

/-- Witness for C5 at a concrete item and a concrete edit sequence. -/
theorem line_cost_invariant_witness :
    (applyItemUpdate newMaterialItem (.quantity 3)).line_cost =
      (applyItemUpdate newMaterialItem (.quantity 3)).quantity *
        (applyItemUpdate newMaterialItem (.quantity 3)).unit_price ∧
    ([ItemField.quantity 3, ItemField.unit_price 5].foldl applyItemUpdate
        newMaterialItem).line_cost =
      ([ItemField.quantity 3, ItemField.unit_price 5].foldl applyItemUpdate
          newMaterialItem).quantity *
        ([ItemField.quantity 3, ItemField.unit_price 5].foldl applyItemUpdate
            newMaterialItem).unit_price :=
  ⟨(line_cost_invariant newMaterialItem (.quantity 3)
      [ItemField.quantity 3, ItemField.unit_price 5]).1 (by decide),
   (line_cost_invariant newMaterialItem (.quantity 3)
      [ItemField.quantity 3, ItemField.unit_price 5]).2.2.2.1
    (by intro g hg; fin_cases hg <;> decide)⟩

theorem set_self_of_get? {α : Type _} (l : List α) (i : Nat) (a : α)
    (h : l.get? i = some a) : l.set i a = l := by
  induction l generalizing i with
  | nil => rfl
  | cons x xs ih =>
    cases i with
    | zero =>
      simp only [List.get?] at h
      injection h with h
      subst h
      rfl
    | succ n =>
      simp only [List.get?] at h
      simp [ih n h]

/-- C8: the informational `quantity` field never affects a derived
value — two tiers differing only in `quantity` recompute to identical
derived fields, and editing a tier's quantity via
`updatePricingOption` leaves every tier's derived fields unchanged
(provided the tiers are in sync with the current base cost, as the
recompute-on-mutation triggers maintain). -/
theorem pricing_quantity_noninterference
    (o : PricingOption) (B q v : ℚ) (options : List PricingOption)
    (items : List BudgetItem) (index : Nat) :
    derivedOf (recalcOption { o with quantity := q } B) =
      derivedOf (recalcOption o B) ∧
    ((∀ t ∈ options, recalcOption t (baseCost items) = t) →
      (updatePricingOption options items index (.quantity v)).map derivedOf =
        options.map derivedOf) := by
  constructor
  · simp [recalcOption, derivedOf]
  · intro hsync
    unfold updatePricingOption
    cases hg : options.get? index with
    | none => rfl
    | some t =>
      have htmem : t ∈ options := List.get?_mem hg
      have hder : derivedOf (recalcOption (setPricingField t (.quantity v))
          (baseCost items)) = derivedOf t := by
        have h1 : derivedOf (recalcOption (setPricingField t (.quantity v))
            (baseCost items)) = derivedOf (recalcOption t (baseCost items)) := by
          simp [recalcOption, derivedOf, setPricingField]
        rw [h1, hsync t htmem]
      rw [List.map_set, hder]
      exact set_self_of_get? _ index _ (by rw [List.get?_eq_getElem?, List.getElem?_map, ← List.get?_eq_getElem?, hg]; rfl)

/-- Witness for C8 at a concrete synced tier list. -/
theorem pricing_quantity_noninterference_witness :
    (∀ t ∈ [({ id := 1, quantity := 1, marginPercentage := 10, marginAmount := 0,
               totalCost := 0, clientPrice := 0 } : PricingOption)],
        recalcOption t (baseCost []) = t) ∧
    (updatePricingOption
        [({ id := 1, quantity := 1, marginPercentage := 10, marginAmount := 0,
            totalCost := 0, clientPrice := 0 } : PricingOption)] [] 0
        (.quantity 7)).map derivedOf =
      [({ id := 1, quantity := 1, marginPercentage := 10, marginAmount := 0,
          totalCost := 0, clientPrice := 0 } : PricingOption)].map derivedOf :=
  ⟨by
    intro t ht
    simp only [List.mem_singleton] at ht
    subst ht
    simp [recalcOption, baseCost],
   (pricing_quantity_noninterference
      ⟨1, 1, 10, 0, 0, 0⟩ 0 0 7
      [({ id := 1, quantity := 1, marginPercentage := 10, marginAmount := 0,
          totalCost := 0, clientPrice := 0 } : PricingOption)] [] 0).2
    (by
      intro t ht
      simp only [List.mem_singleton] at ht
      subst ht
      simp [recalcOption, baseCost])⟩

/-- The one-step unfolding of the `calculateEstimatedEndDate` loop. -/
theorem calcEnd_unfold (c : Nat) (r : Int) :
    calculateEstimatedEndDate c r =
      if 0 < r then
        if isBusinessDay (c + 1) then calculateEstimatedEndDate (c + 1) (r - 1)
        else calculateEstimatedEndDate (c + 1) r
      else c := by
  rw [calculateEstimatedEndDate]

/-- The full behaviour of the `calculateEstimatedEndDate` loop, by
strong induction on its termination measure: a non-positive count
returns the start day unchanged; a positive count `r` lands strictly
after the start, on a business day, having advanced past exactly
`r` business days (the start day itself never counted); and the result
is at most `start + 3r + 2` calendar days. -/
theorem calcEnd_main :
    ∀ (n c : Nat) (r : Int), 3 * r.toNat + weekendPad c ≤ n →
    (r ≤ 0 → calculateEstimatedEndDate c r = c) ∧
    (0 < r →
      c < calculateEstimatedEndDate c r ∧
      isBusinessDay (calculateEstimatedEndDate c r) = true ∧
      countBusinessDays c (calculateEstimatedEndDate c r - c) = r.toNat) ∧
    calculateEstimatedEndDate c r ≤ c + 3 * r.toNat + weekendPad c := by
  intro n
  induction n with
  | zero =>
    intro c r hn
    have hr : ¬ 0 < r := by omega
    rw [calcEnd_unfold, if_neg hr]
    exact ⟨fun _ => rfl, fun h => absurd h hr, by omega⟩
  | succ n ih =>
    intro c r hn
    by_cases hr : 0 < r
    · rw [calcEnd_unfold, if_pos hr]
      cases hb : isBusinessDay (c + 1) with
      | true =>
        rw [if_pos rfl]
        have hpad0 := weekendPad_eq_zero_of_business c hb
        by_cases hr1 : 0 < r - 1
        · have hmeas : 3 * (r - 1).toNat + weekendPad (c + 1) ≤ n := by
            have := weekendPad_le_two (c + 1)
            omega
          obtain ⟨h1, h2, h3⟩ := ih (c + 1) (r - 1) hmeas
          obtain ⟨hlt, hbiz, hcount⟩ := h2 hr1
          refine ⟨fun hle => absurd hr (by omega), fun _ => ⟨by omega, hbiz, ?_⟩, ?_⟩
          · have he : calculateEstimatedEndDate (c + 1) (r - 1) - c =
                (calculateEstimatedEndDate (c + 1) (r - 1) - (c + 1)) + 1 := by
              omega
            rw [he]
            simp [countBusinessDays, hb]
            omega
          · have := weekendPad_le_two (c + 1)
            omega
        · have hmeas : 3 * (r - 1).toNat + weekendPad (c + 1) ≤ n := by
            have := weekendPad_le_two (c + 1)
            omega
          obtain ⟨h1, h2, h3⟩ := ih (c + 1) (r - 1) hmeas
          rw [h1 (by omega)]
          refine ⟨fun hle => absurd hr (by omega), fun _ => ⟨by omega, hb, ?_⟩, by omega⟩
          have he : c + 1 - c = 1 := by omega
          rw [he]
          simp [countBusinessDays, hb]
          omega
      | false =>
        rw [if_neg (by simp)]
        have hpads := weekendPad_succ_of_not_business c hb
        have hmeas : 3 * r.toNat + weekendPad (c + 1) ≤ n := by omega
        obtain ⟨h1, h2, h3⟩ := ih (c + 1) r hmeas
        obtain ⟨hlt, hbiz, hcount⟩ := h2 hr
        refine ⟨fun hle => absurd hr (by omega), fun _ => ⟨by omega, hbiz, ?_⟩, by omega⟩
        have he : calculateEstimatedEndDate (c + 1) r - c =
            (calculateEstimatedEndDate (c + 1) r - (c + 1)) + 1 := by
          omega
        rw [he]
        simp [countBusinessDays, hb]
        omega
    · rw [calcEnd_unfold, if_neg hr]
      exact ⟨fun _ => rfl, fun h => absurd h hr, by omega⟩

/-- C3: for a positive business-day count `n`, the projected end date
lands strictly after the start, on a business day, with exactly `n`
business days among the advanced days `start+1 .. end` (the start day
itself is never counted); and projecting 1 business day from Friday
2025-03-07 yields Monday 2025-03-10. -/
theorem calculateEstimatedEndDate_spec :
    (∀ (start : Nat) (n : Int), 0 < n →
      start < calculateEstimatedEndDate start n ∧
      isBusinessDay (calculateEstimatedEndDate start n) = true ∧
      countBusinessDays start (calculateEstimatedEndDate start n - start) =
        n.toNat) ∧
    calculateEstimatedEndDate (toEpochDay 2025 3 7) 1 = toEpochDay 2025 3 10 ∧
    getDay (toEpochDay 2025 3 7) = 5 ∧
    getDay (toEpochDay 2025 3 10) = 1 := by
  refine ⟨?_, ?_, by decide, by decide⟩
  · intro start n hn
    exact (calcEnd_main (3 * n.toNat + weekendPad start) start n le_rfl).2.1 hn
  · norm_num [toEpochDay]
    simp [calculateEstimatedEndDate, isBusinessDay, getDay]

/-- Witness for C3: one business day added to Friday, day 20154
(2025-03-07). -/
theorem calculateEstimatedEndDate_spec_witness :
    (0 : Int) < 1 ∧
    (20154 < calculateEstimatedEndDate 20154 1 ∧
     isBusinessDay (calculateEstimatedEndDate 20154 1) = true ∧
     countBusinessDays 20154 (calculateEstimatedEndDate 20154 1 - 20154) =
       (1 : Int).toNat) :=
  ⟨by decide, calculateEstimatedEndDate_spec.1 20154 1 (by decide)⟩

/-- C10: the day-by-day loop of `calculateEstimatedEndDate` always
terminates — a non-positive count returns the start date unchanged, and
a count of `d` never advances more than `3 d + 2` calendar days (each
business day consumed costs at most three calendar days, plus at most
one leading weekend). -/
theorem calculateEstimatedEndDate_terminates (start : Nat) (d : Int) :
    (d ≤ 0 → calculateEstimatedEndDate start d = start) ∧
    calculateEstimatedEndDate start d ≤ start + 3 * d.toNat + 2 := by
  have h := calcEnd_main (3 * d.toNat + weekendPad start) start d le_rfl
  refine ⟨h.1, le_trans h.2.2 ?_⟩
  have := weekendPad_le_two start
  omega

/-- Witness for C10 at a negative and at a positive count. -/
theorem calculateEstimatedEndDate_terminates_witness :
    ((-3 : Int) ≤ 0 ∧ calculateEstimatedEndDate 100 (-3) = 100) ∧
    calculateEstimatedEndDate 100 5 ≤ 100 + 3 * (5 : Int).toNat + 2 :=
  ⟨⟨by decide, (calculateEstimatedEndDate_terminates 100 (-3)).1 (by decide)⟩,
   (calculateEstimatedEndDate_terminates 100 5).2⟩

/-! Helper lemmas about the modelled save path. -/

theorem budgetWriteTotals_append (a b : List StoreOp) :
    budgetWriteTotals (a ++ b) = budgetWriteTotals a ++ budgetWriteTotals b := by
  simp [budgetWriteTotals, List.filterMap_append]

theorem uploadFold_ops_shape (fails : StoreOp → Bool) (files : List String)
    (acc : UploadResult)
    (h : ∀ op ∈ acc.ops, ∃ f, op = StoreOp.uploadImage f) :
    ∀ op ∈ (files.foldl (uploadStep fails) acc).ops,
      ∃ f, op = StoreOp.uploadImage f := by
  induction files generalizing acc with
  | nil => simpa using h
  | cons file rest ih =>
    simp only [List.foldl_cons]
    apply ih
    intro op hop
    unfold uploadStep at hop
    split at hop <;>
      (simp only [List.mem_append, List.mem_singleton] at hop
       rcases hop with h1 | h2
       · exact h op h1
       · exact ⟨file, h2⟩)

theorem uploadImages_ops_shape (fails : StoreOp → Bool) (files : List String) :
    ∀ op ∈ (uploadImages fails files).ops, ∃ f, op = StoreOp.uploadImage f :=
  uploadFold_ops_shape fails files ⟨[], [], []⟩ (by simp)

theorem writeLineItems_ops_shape (fails : StoreOp → Bool) (bid : String)
    (xs : List BudgetItem) :
    ∀ op ∈ (writeLineItems fails bid xs).1, ∃ it, op = lineItemOp bid it := by
  induction xs with
  | nil => simp [writeLineItems]
  | cons it rest ih =>
    intro op hop
    unfold writeLineItems at hop
    split at hop
    · simp only [List.mem_singleton] at hop
      exact ⟨it, hop⟩
    · simp only [List.mem_cons] at hop
      rcases hop with h1 | h2
      · exact ⟨it, h1⟩
      · exact ih op h2

theorem budgetWriteTotals_nil_of_uploads (ops : List StoreOp)
    (h : ∀ op ∈ ops, ∃ f, op = StoreOp.uploadImage f) :
    budgetWriteTotals ops = [] := by
  induction ops with
  | nil => rfl
  | cons op rest ih =>
    obtain ⟨f, hf⟩ := h op (by simp)
    subst hf
    simpa [budgetWriteTotals, List.filterMap_cons] using
      ih (fun op hop => h op (by simp [hop]))

theorem budgetWriteTotals_nil_of_items (bid : String) (ops : List StoreOp)
    (h : ∀ op ∈ ops, ∃ it, op = lineItemOp bid it) :
    budgetWriteTotals ops = [] := by
  induction ops with
  | nil => rfl
  | cons op rest ih =>
    obtain ⟨it, hf⟩ := h op (by simp)
    have hrest := ih (fun op hop => h op (by simp [hop]))
    subst hf
    unfold lineItemOp
    cases it.id <;>
      simpa [budgetWriteTotals, List.filterMap_cons] using hrest

theorem budgetWriteTotals_uploadImages (fails : StoreOp → Bool)
    (files : List String) :
    budgetWriteTotals (uploadImages fails files).ops = [] :=
  budgetWriteTotals_nil_of_uploads _ (uploadImages_ops_shape fails files)

theorem budgetWriteTotals_writeLineItems (fails : StoreOp → Bool) (bid : String)
    (xs : List BudgetItem) :
    budgetWriteTotals (writeLineItems fails bid xs).1 = [] :=
  budgetWriteTotals_nil_of_items bid _ (writeLineItems_ops_shape fails bid xs)

theorem budgetWriteTotals_nil : budgetWriteTotals [] = [] := rfl

theorem budgetWriteTotals_budgetUpdate_cons (bid : String) (row : BudgetRow)
    (rest : List StoreOp) :
    budgetWriteTotals (StoreOp.budgetUpdate bid row :: rest) =
      row.total_amount :: budgetWriteTotals rest := by
  simp [budgetWriteTotals, List.filterMap_cons]

theorem budgetWriteTotals_budgetInsert_cons (row : BudgetRow) (uid : String)
    (rest : List StoreOp) :
    budgetWriteTotals (StoreOp.budgetInsert row uid :: rest) =
      row.total_amount :: budgetWriteTotals rest := by
  simp [budgetWriteTotals, List.filterMap_cons]

theorem budgetWriteTotals_bulk_cons (b : String) (rows : List BudgetItem)
    (rest : List StoreOp) :
    budgetWriteTotals (StoreOp.itemsBulkInsert b rows :: rest) =
      budgetWriteTotals rest := by
  simp [budgetWriteTotals, List.filterMap_cons]

theorem budgetWriteTotals_handleSubmit (env : SaveEnv) (editingId : Option String)
    (budget : BudgetForm) (items extras : List BudgetItem)
    (pricing : List PricingOption) (files : List String) (uid : String)
    (hu : env.user = some uid) :
    budgetWriteTotals (handleSubmit env editingId budget items extras pricing files).ops =
      [(savedBudgetRow budget items pricing
          (budget.images ++ (uploadImages env.fails files).urls)).total_amount] := by
  unfold handleSubmit
  rw [hu]
  cases editingId with
  | some bid =>
    simp only
    split_ifs <;>
      simp [budgetWriteTotals_append, budgetWriteTotals_uploadImages,
        budgetWriteTotals_writeLineItems, budgetWriteTotals_budgetUpdate_cons,
        budgetWriteTotals_nil]
  | none =>
    simp only
    split_ifs <;>
      simp [budgetWriteTotals_append, budgetWriteTotals_uploadImages,
        budgetWriteTotals_budgetInsert_cons, budgetWriteTotals_bulk_cons,
        budgetWriteTotals_nil]

theorem writeLineItems_all_ok (fails : StoreOp → Bool) (bid : String) :
    ∀ xs : List BudgetItem, (∀ it ∈ xs, fails (lineItemOp bid it) = false) →
      writeLineItems fails bid xs = (xs.map (lineItemOp bid), true) := by
  intro xs
  induction xs with
  | nil => intro _; rfl
  | cons it rest ih =>
    intro h
    have h1 := h it (by simp)
    unfold writeLineItems
    rw [if_neg (by simp [h1])]
    simp [ih (fun j hj => h j (by simp [hj]))]

theorem writeLineItems_fail_shape (fails : StoreOp → Bool) (bid : String) :
    ∀ xs : List BudgetItem, (writeLineItems fails bid xs).2 = false →
      ∃ pre it post, xs = pre ++ it :: post ∧
        (∀ j ∈ pre, fails (lineItemOp bid j) = false) ∧
        fails (lineItemOp bid it) = true ∧
        (writeLineItems fails bid xs).1 =
          pre.map (lineItemOp bid) ++ [lineItemOp bid it] := by
  intro xs
  induction xs with
  | nil => intro h; simp [writeLineItems] at h
  | cons it rest ih =>
    intro h
    by_cases hf : fails (lineItemOp bid it) = true
    · exact ⟨[], it, rest, by simp, by simp, hf, by simp [writeLineItems, hf]⟩
    · have hf' : fails (lineItemOp bid it) = false := by simpa using hf
      have h2 : (writeLineItems fails bid rest).2 = false := by
        unfold writeLineItems at h
        rw [if_neg (by simp [hf'])] at h
        simpa using h
      obtain ⟨pre, j, post, hxs, hpre, hj, hops⟩ := ih h2
      refine ⟨it :: pre, j, post, by simp [hxs], ?_, hj, ?_⟩
      · intro a ha
        rcases List.mem_cons.mp ha with h1 | h1
        · rw [h1]; exact hf'
        · exact hpre a h1
      · unfold writeLineItems
        rw [if_neg (by simp [hf'])]
        simp [hops]

/-- C2: the base cost fed to the pricing tiers and the `total_amount`
written to the budget record on save both equal the sum of `line_cost`
over the material lines only; the extras collection contributes to
neither, so replacing it changes no saved budget total. -/
theorem total_amount_materials_only
    (budget : BudgetForm) (items extras extras2 : List BudgetItem)
    (options pricing : List PricingOption) (allImages : List String)
    (env : SaveEnv) (editingId : Option String) (files : List String) :
    baseCost items = (items.map (fun it => it.line_cost)).sum ∧
    (savedBudgetRow budget items pricing allImages).total_amount =
      (items.map (fun it => it.line_cost)).sum ∧
    recomputePricing options items =
      options.map (fun opt =>
        recalcOption opt ((items.map (fun it => it.line_cost)).sum)) ∧
    (∀ t ∈ budgetWriteTotals
        (handleSubmit env editingId budget items extras pricing files).ops,
      t = (items.map (fun it => it.line_cost)).sum) ∧
    budgetWriteTotals
        (handleSubmit env editingId budget items extras pricing files).ops =
      budgetWriteTotals
        (handleSubmit env editingId budget items extras2 pricing files).ops := by
  have hbase : baseCost items = (items.map (fun it => it.line_cost)).sum := by
    unfold baseCost
    rw [foldl_add_cost]
    simp
  have hrow : ∀ imgs, (savedBudgetRow budget items pricing imgs).total_amount =
      (items.map (fun it => it.line_cost)).sum := by
    intro imgs
    unfold savedBudgetRow
    rw [foldl_add_cost]
    simp
  refine ⟨hbase, hrow allImages, ?_, ?_, ?_⟩
  · unfold recomputePricing
    rw [hbase]
  · intro t ht
    cases hu : env.user with
    | none =>
      rw [show handleSubmit env editingId budget items extras pricing files =
          ⟨[], [.saveError]⟩ by unfold handleSubmit; rw [hu]] at ht
      simp [budgetWriteTotals] at ht
    | some uid =>
      rw [budgetWriteTotals_handleSubmit env editingId budget items extras
        pricing files uid hu] at ht
      simp only [List.mem_singleton] at ht
      rw [ht, hrow]
  · cases hu : env.user with
    | none =>
      rw [show handleSubmit env editingId budget items extras pricing files =
            ⟨[], [.saveError]⟩ by unfold handleSubmit; rw [hu],
          show handleSubmit env editingId budget items extras2 pricing files =
            ⟨[], [.saveError]⟩ by unfold handleSubmit; rw [hu]]
    | some uid =>
      rw [budgetWriteTotals_handleSubmit env editingId budget items extras
        pricing files uid hu,
        budgetWriteTotals_handleSubmit env editingId budget items extras2
        pricing files uid hu]

/-- Witness for C2: a concrete save of one material line with cost 3
and one unrelated extra. -/
theorem total_amount_materials_only_witness :
    (3 : ℚ) ∈ budgetWriteTotals
      (handleSubmit
        { fails := fun _ => false, user := some "u", newBudgetId := "nb" }
        (some "b1") { client_id := "c", status := "draft" }
        [{ newMaterialItem with line_cost := 3 }]
        [{ newExtraItem with line_cost := 99 }] [] []).ops ∧
    (3 : ℚ) = ([{ newMaterialItem with line_cost := 3 }].map
      (fun it => it.line_cost)).sum :=
  ⟨by
    rw [budgetWriteTotals_handleSubmit
      { fails := fun _ => false, user := some "u", newBudgetId := "nb" }
      (some "b1") { client_id := "c", status := "draft" }
      [{ newMaterialItem with line_cost := 3 }]
      [{ newExtraItem with line_cost := 99 }] [] [] "u" rfl]
    simp [savedBudgetRow],
   by
    have h := (total_amount_materials_only
      { client_id := "c", status := "draft" }
      [{ newMaterialItem with line_cost := 3 }]
      [{ newExtraItem with line_cost := 99 }] [] [] [] []
      { fails := fun _ => false, user := some "u", newBudgetId := "nb" }
      (some "b1") []).2.1
    rw [← h]
    simp [savedBudgetRow]⟩

/-- C6 counterexample: with one pending image whose upload fails and
every store write succeeding, the save does not abort — the budget
update is still attempted after the failed upload, and the user sees a
per-file upload error followed by a success toast (two signals, neither
a single failure signal). -/
theorem upload_failure_does_not_abort :
    handleSubmit
      { fails := fun op => isUploadOp op, user := some "u", newBudgetId := "nb" }
      (some "b1") { client_id := "c", status := "draft" } [] [] [] ["img.png"] =
    { ops := [.uploadImage "img.png",
              .budgetUpdate "b1"
                (savedBudgetRow { client_id := "c", status := "draft" } [] [] [])],
      signals := [.uploadError "img.png", .saveSuccess] } := by
  rfl

/-- C6 (amended): on either save path, a failing budget upsert
(update or insert) or a failing line-item write — in the materials
loop, in the extras loop after all material writes succeed, or in the
create path's bulk insert — aborts the remaining persistence steps and
surfaces a single failure signal after any upload-error messages, with
no write attempted past the failing one; failing image uploads alone
never abort the save, which still ends in a success signal. -/
theorem save_failure_handling
    (env : SaveEnv) (uid bid : String) (budget : BudgetForm)
    (items extras : List BudgetItem) (pricing : List PricingOption)
    (files : List String) (editingId : Option String)
    (hu : env.user = some uid) :
    (env.fails (.budgetUpdate bid (savedBudgetRow budget items pricing
        (budget.images ++ (uploadImages env.fails files).urls))) = true →
      handleSubmit env (some bid) budget items extras pricing files =
        ⟨(uploadImages env.fails files).ops ++
           [.budgetUpdate bid (savedBudgetRow budget items pricing
              (budget.images ++ (uploadImages env.fails files).urls))],
         (uploadImages env.fails files).signals ++ [.saveError]⟩) ∧
    (env.fails (.budgetUpdate bid (savedBudgetRow budget items pricing
        (budget.images ++ (uploadImages env.fails files).urls))) = false →
      (writeLineItems env.fails bid items).2 = false →
      handleSubmit env (some bid) budget items extras pricing files =
        ⟨(uploadImages env.fails files).ops ++
           [.budgetUpdate bid (savedBudgetRow budget items pricing
              (budget.images ++ (uploadImages env.fails files).urls))] ++
           (writeLineItems env.fails bid items).1,
         (uploadImages env.fails files).signals ++ [.saveError]⟩) ∧
    (env.fails (.budgetUpdate bid (savedBudgetRow budget items pricing
        (budget.images ++ (uploadImages env.fails files).urls))) = false →
      (writeLineItems env.fails bid items).2 = true →
      (writeLineItems env.fails bid extras).2 = false →
      handleSubmit env (some bid) budget items extras pricing files =
        ⟨(uploadImages env.fails files).ops ++
           [.budgetUpdate bid (savedBudgetRow budget items pricing
              (budget.images ++ (uploadImages env.fails files).urls))] ++
           (writeLineItems env.fails bid items).1 ++
           (writeLineItems env.fails bid extras).1,
         (uploadImages env.fails files).signals ++ [.saveError]⟩) ∧
    (env.fails (.budgetInsert (savedBudgetRow budget items pricing
        (budget.images ++ (uploadImages env.fails files).urls)) uid) = true →
      handleSubmit env none budget items extras pricing files =
        ⟨(uploadImages env.fails files).ops ++
           [.budgetInsert (savedBudgetRow budget items pricing
              (budget.images ++ (uploadImages env.fails files).urls)) uid],
         (uploadImages env.fails files).signals ++ [.saveError]⟩) ∧
    (env.fails (.budgetInsert (savedBudgetRow budget items pricing
        (budget.images ++ (uploadImages env.fails files).urls)) uid) = false →
      env.fails (.itemsBulkInsert env.newBudgetId (items ++ extras)) = true →
      handleSubmit env none budget items extras pricing files =
        ⟨(uploadImages env.fails files).ops ++
           [.budgetInsert (savedBudgetRow budget items pricing
              (budget.images ++ (uploadImages env.fails files).urls)) uid,
            .itemsBulkInsert env.newBudgetId (items ++ extras)],
         (uploadImages env.fails files).signals ++ [.saveError]⟩) ∧
    (∀ xs, (writeLineItems env.fails bid xs).2 = false →
      ∃ pre it post, xs = pre ++ it :: post ∧
        (∀ j ∈ pre, env.fails (lineItemOp bid j) = false) ∧
        env.fails (lineItemOp bid it) = true ∧
        (writeLineItems env.fails bid xs).1 =
          pre.map (lineItemOp bid) ++ [lineItemOp bid it]) ∧
    ((∀ op, isUploadOp op = false → env.fails op = false) →
      (handleSubmit env editingId budget items extras pricing files).signals =
        (uploadImages env.fails files).signals ++ [.saveSuccess]) := by
  refine ⟨?_, ?_, ?_, ?_, ?_, writeLineItems_fail_shape env.fails bid, ?_⟩
  · intro h1
    unfold handleSubmit
    rw [hu]
    simp only [h1, if_true]
  · intro h1 h2
    unfold handleSubmit
    rw [hu]
    simp only [h1, h2, Bool.false_eq_true, if_false]
  · intro h1 h2 h3
    unfold handleSubmit
    rw [hu]
    simp only [h1, h2, h3, Bool.false_eq_true, if_false, if_true]
  · intro h1
    unfold handleSubmit
    rw [hu]
    simp only [h1, if_true]
  · intro h1 h2
    unfold handleSubmit
    rw [hu]
    simp only [h1, h2, Bool.false_eq_true, if_false, if_true]
  · intro hok
    cases editingId with
    | some bid2 =>
      have hitems : writeLineItems env.fails bid2 items =
          (items.map (lineItemOp bid2), true) :=
        writeLineItems_all_ok env.fails bid2 items
          (fun it _ => hok (lineItemOp bid2 it)
            (by unfold lineItemOp isUploadOp; cases it.id <;> rfl))
      have hextras : writeLineItems env.fails bid2 extras =
          (extras.map (lineItemOp bid2), true) :=
        writeLineItems_all_ok env.fails bid2 extras
          (fun it _ => hok (lineItemOp bid2 it)
            (by unfold lineItemOp isUploadOp; cases it.id <;> rfl))
      unfold handleSubmit
      rw [hu]
      simp only [hok _ (by rfl : isUploadOp (StoreOp.budgetUpdate bid2
          (savedBudgetRow budget items pricing
            (budget.images ++ (uploadImages env.fails files).urls))) = false),
        Bool.false_eq_true, if_false, hitems, hextras, if_true]
    | none =>
      unfold handleSubmit
      rw [hu]
      simp only [hok _ (by rfl : isUploadOp (StoreOp.budgetInsert
          (savedBudgetRow budget items pricing
            (budget.images ++ (uploadImages env.fails files).urls)) uid) = false),
        hok _ (by rfl : isUploadOp (StoreOp.itemsBulkInsert env.newBudgetId
          (items ++ extras)) = false),
        Bool.false_eq_true, if_false]

/-- Witness for C6 (amended), exercising every failure mode at concrete
inputs: a failing budget update, a failing extras-loop write after the
(empty) materials loop succeeds, a failing budget insert, a failing
bulk line insert, a failing materials-loop write with its first-failure
shape, and an all-writes-succeed save with a failing upload. -/
theorem save_failure_handling_witness :
    handleSubmit failBudgetUpdateEnv (some "b1") draftBudget [] [] [] [] =
      ⟨[.budgetUpdate "b1" (savedBudgetRow draftBudget [] [] [])],
       [.saveError]⟩ ∧
    handleSubmit failItemWriteEnv (some "b1") draftBudget []
        [{ newExtraItem with id := some "x1" }] [] [] =
      ⟨[.budgetUpdate "b1" (savedBudgetRow draftBudget [] [] []),
        .itemUpdate "x1" { newExtraItem with id := some "x1" }],
       [.saveError]⟩ ∧
    handleSubmit failBudgetInsertEnv none draftBudget [] [] [] [] =
      ⟨[.budgetInsert (savedBudgetRow draftBudget [] [] []) "u"],
       [.saveError]⟩ ∧
    handleSubmit failBulkInsertEnv none draftBudget [] [] [] [] =
      ⟨[.budgetInsert (savedBudgetRow draftBudget [] [] []) "u",
        .itemsBulkInsert "nb" []],
       [.saveError]⟩ ∧
    (∃ pre it post, [newMaterialItem] = pre ++ it :: post ∧
      (∀ j ∈ pre, failItemWriteEnv.fails (lineItemOp "b1" j) = false) ∧
      failItemWriteEnv.fails (lineItemOp "b1" it) = true ∧
      (writeLineItems failItemWriteEnv.fails "b1" [newMaterialItem]).1 =
        pre.map (lineItemOp "b1") ++ [lineItemOp "b1" it]) ∧
    (handleSubmit failUploadsEnv (some "b1") draftBudget [] [] []
        ["img.png"]).signals =
      (uploadImages failUploadsEnv.fails ["img.png"]).signals ++
        [.saveSuccess] := by
  refine ⟨?_, ?_, ?_, ?_, ?_, ?_⟩
  · have h := (save_failure_handling failBudgetUpdateEnv "u" "b1" draftBudget
      [] [] [] [] (some "b1") rfl).1 rfl
    simpa [uploadImages, draftBudget] using h
  · have h := (save_failure_handling failItemWriteEnv "u" "b1" draftBudget
      [] [{ newExtraItem with id := some "x1" }] [] [] (some "b1") rfl).2.2.1
      rfl rfl rfl
    simpa [uploadImages, writeLineItems, lineItemOp, failItemWriteEnv,
      draftBudget] using h
  · have h := (save_failure_handling failBudgetInsertEnv "u" "b1" draftBudget
      [] [] [] [] none rfl).2.2.2.1 rfl
    simpa [uploadImages, draftBudget] using h
  · have h := (save_failure_handling failBulkInsertEnv "u" "b1" draftBudget
      [] [] [] [] none rfl).2.2.2.2.1 rfl rfl
    simpa [uploadImages, draftBudget, failBulkInsertEnv] using h
  · exact (save_failure_handling failItemWriteEnv "u" "b1" draftBudget
      [] [] [] [] (some "b1") rfl).2.2.2.2.2.1 [newMaterialItem] rfl
  · exact (save_failure_handling failUploadsEnv "u" "b1" draftBudget
      [] [] [] ["img.png"] (some "b1") rfl).2.2.2.2.2.2 (fun _ h => h)

/-- C7: on the update path, a line item carrying a persisted identity
is updated in place by that identity and one without is inserted tagged
with the budget's identity; when no line write fails the writes are
exactly those, in order; and no delete of stored lines is ever
attempted by this save path. -/
theorem update_path_upserts_by_identity
    (env : SaveEnv) (bid : String) (budget : BudgetForm)
    (items extras : List BudgetItem) (pricing : List PricingOption)
    (files : List String) (it : BudgetItem) (rid : String)
    (editingId : Option String) :
    (it.id = some rid → lineItemOp bid it = .itemUpdate rid it) ∧
    (it.id = none → lineItemOp bid it = .itemInsert bid it) ∧
    ((∀ j ∈ items, env.fails (lineItemOp bid j) = false) →
      writeLineItems env.fails bid items = (items.map (lineItemOp bid), true)) ∧
    (∀ b, StoreOp.deleteItems b ∉
      (handleSubmit env editingId budget items extras pricing files).ops) := by
  refine ⟨?_, ?_, writeLineItems_all_ok env.fails bid items, ?_⟩
  · intro h
    unfold lineItemOp
    rw [h]
  · intro h
    unfold lineItemOp
    rw [h]
  · intro b hmem
    have hup : ∀ (fs : List String),
        StoreOp.deleteItems b ∉ (uploadImages env.fails fs).ops := by
      intro fs hin
      obtain ⟨f, hf⟩ := uploadImages_ops_shape env.fails fs _ hin
      exact StoreOp.noConfusion hf
    have hwr : ∀ (bi : String) (xs : List BudgetItem),
        StoreOp.deleteItems b ∉ (writeLineItems env.fails bi xs).1 := by
      intro bi xs hin
      obtain ⟨j, hj⟩ := writeLineItems_ops_shape env.fails bi xs _ hin
      unfold lineItemOp at hj
      cases hid : j.id <;> rw [hid] at hj <;> exact StoreOp.noConfusion hj
    revert hmem
    unfold handleSubmit
    cases env.user with
    | none => simp
    | some uid =>
      cases editingId with
      | some bid2 =>
        simp only
        split_ifs <;>
          (intro hmem
           simp only [List.append_assoc, List.mem_append, List.mem_singleton,
             List.mem_cons, List.not_mem_nil, or_false] at hmem) <;>
          rcases hmem with h1 | h1 | h1 <;>
            first
              | exact hup _ h1
              | exact StoreOp.noConfusion h1
              | exact hwr _ _ h1
              | (rcases h1 with h1 | h1
                 · exact hwr _ _ h1
                 · exact hwr _ _ h1)
      | none =>
        simp only
        split_ifs <;>
          (intro hmem
           simp only [List.mem_append, List.mem_singleton, List.mem_cons,
             List.not_mem_nil, or_false] at hmem) <;>
          rcases hmem with h1 | h1 <;>
            first
              | exact hup _ h1
              | exact StoreOp.noConfusion h1
              | (rcases h1 with h1 | h1 <;> exact StoreOp.noConfusion h1)

/-- Witness for C7 at concrete items with and without persisted
identity. -/
theorem update_path_upserts_by_identity_witness :
    ({ newMaterialItem with id := some "r1" } : BudgetItem).id = some "r1" ∧
    lineItemOp "b1" { newMaterialItem with id := some "r1" } =
      .itemUpdate "r1" { newMaterialItem with id := some "r1" } ∧
    newMaterialItem.id = none ∧
    lineItemOp "b1" newMaterialItem = .itemInsert "b1" newMaterialItem ∧
    writeLineItems (fun _ => false) "b1" [newMaterialItem] =
      ([lineItemOp "b1" newMaterialItem], true) :=
  ⟨rfl,
   (update_path_upserts_by_identity
      { fails := fun _ => false, user := some "u", newBudgetId := "nb" }
      "b1" { client_id := "c", status := "draft" } [newMaterialItem] [] [] []
      { newMaterialItem with id := some "r1" } "r1" none).1 rfl,
   rfl,
   (update_path_upserts_by_identity
      { fails := fun _ => false, user := some "u", newBudgetId := "nb" }
      "b1" { client_id := "c", status := "draft" } [newMaterialItem] [] [] []
      newMaterialItem "r1" none).2.1 rfl,
   (update_path_upserts_by_identity
      { fails := fun _ => false, user := some "u", newBudgetId := "nb" }
      "b1" { client_id := "c", status := "draft" } [newMaterialItem] [] [] []
      newMaterialItem "r1" none).2.2.1 (fun _ _ => rfl)⟩

end LomCotacao
